import Mathlib

/-!
Shallow embedding of `aQaTL/sane-web-scanner` (`src/main.rs`) and proofs
about its specification claims.

The program talks to the SANE scanner driver.  Driver behaviour is modelled
by explicit "scripts": lists of driver responses (read outcomes, statuses,
option descriptors).  Machine integers (`u32`, `i32`) are modelled as
`Nat`/`Int` with explicit reduction modulo `2^32` where wrapping matters.
-/

/-- Value `2^32`, the modulus of `u32` arithmetic. -/
def u32Mod : Nat := 4294967296

/-- Little-endian byte serialization of a `u32` value (`u32::to_le_bytes`).
Digit extraction wraps any `Nat` input exactly like a cast to `u32` would. -/
def u32le (n : Nat) : List Nat :=
  [n % 256, n / 256 % 256, n / 65536 % 256, n / 16777216 % 256]

/-- Little-endian byte serialization of a `u16` value (`u16::to_le_bytes`). -/
def u16le (n : Nat) : List Nat :=
  [n % 256, n / 256 % 256]

/-- Bit pattern (as `u32`) of the `i32` negation `-(height as i32)` in
`encode_as_bmp`: two's-complement wrapping negation. -/
def negU32 (h : Nat) : Nat := (u32Mod - h % u32Mod) % u32Mod

/-- Constant `const BMP_FILE_HEADER_SIZE: u32 = 2 + 4 + 2 + 2 + 4;` -/
def BMP_FILE_HEADER_SIZE : Nat := 2 + 4 + 2 + 2 + 4

/-- Constant `const BMP_IMAGE_HEADER_SIZE: u32 = 4 + 4 + 4 + 2 + 2 + 4 + 4 + 4 + 4 + 4 + 4;` -/
def BMP_IMAGE_HEADER_SIZE : Nat := 4 + 4 + 4 + 2 + 2 + 4 + 4 + 4 + 4 + 4 + 4

/-- Constant `const BMP_HEADER_SIZE: u32 = BMP_FILE_HEADER_SIZE + BMP_IMAGE_HEADER_SIZE;` -/
def BMP_HEADER_SIZE : Nat := BMP_FILE_HEADER_SIZE + BMP_IMAGE_HEADER_SIZE

/-- The top-level `fn encode_as_bmp` (`main.rs` lines 648-677): file header
(`BM`, file size, two reserved words, pixel-data offset), then the 40-byte
image header (width, negated height, 1 plane, 24-bit depth, zeroed rest),
then the raw pixel bytes.  Writing into a `Vec`/byte sink never fails, so
the `std::io::Result` wrapper is dropped. -/
def encode_as_bmp (img : List Nat) (width height : Nat) : List Nat :=
  [66, 77]
    ++ u32le (BMP_HEADER_SIZE + img.length)
    ++ [0, 0]
    ++ [0, 0]
    ++ u32le BMP_HEADER_SIZE
    ++ u32le BMP_IMAGE_HEADER_SIZE
    ++ u32le width
    ++ u32le (negU32 height)
    ++ u16le 1
    ++ u16le 24
    ++ u32le 0
    ++ u32le 0
    ++ u32le 0
    ++ u32le 0
    ++ u32le 0
    ++ u32le 0
    ++ img

/-- The `encode_as_bmp` closure inside `scan_stream_bmp` (`main.rs` lines
557-579): identical header writes, but the image length is passed as a
`u32` argument `img_len` and no pixel bytes are written. -/
def encode_as_bmp_closure (img_len : Nat) (width height : Nat) : List Nat :=
  [66, 77]
    ++ u32le (BMP_HEADER_SIZE + img_len)
    ++ [0, 0]
    ++ [0, 0]
    ++ u32le BMP_HEADER_SIZE
    ++ u32le BMP_IMAGE_HEADER_SIZE
    ++ u32le width
    ++ u32le (negU32 height)
    ++ u16le 1
    ++ u16le 24
    ++ u32le 0
    ++ u32le 0
    ++ u32le 0
    ++ u32le 0
    ++ u32le 0
    ++ u32le 0

/-- Function `fn rgb_to_bgr` (`main.rs` lines 685-689): for each complete 3-byte
chunk swap bytes 0 and 2 (`chunks_exact_mut(3)`); a trailing remainder of
fewer than 3 bytes is left untouched. -/
def rgb_to_bgr : List Nat → List Nat
  | r :: g :: b :: rest => b :: g :: r :: rgb_to_bgr rest
  | l => l

/-! ## SANE constants (per the SANE 1.06 standard used by the bindings) -/

/-- Constant `SANE_STATUS_GOOD = 0`. -/
def SANE_STATUS_GOOD : Nat := 0

/-- Constant `SANE_TYPE_INT = 1`. -/
def SANE_TYPE_INT : Nat := 1

/-- Constant `SANE_TYPE_FIXED = 2`. -/
def SANE_TYPE_FIXED : Nat := 2

/-- Constant `SANE_UNIT_DPI = 4`. -/
def SANE_UNIT_DPI : Nat := 4

/-- Constant `SANE_CONSTRAINT_NONE = 0`. -/
def SANE_CONSTRAINT_NONE : Nat := 0

/-- Constant `SANE_CONSTRAINT_RANGE = 1`. -/
def SANE_CONSTRAINT_RANGE : Nat := 1

/-- Constant `SANE_CONSTRAINT_WORD_LIST = 2`. -/
def SANE_CONSTRAINT_WORD_LIST : Nat := 2

/-- Constant `SANE_CONSTRAINT_STRING_LIST = 3`. -/
def SANE_CONSTRAINT_STRING_LIST : Nat := 3

/-- Cast of an `i32` value to `u32` (`as u32`): two's-complement
reinterpretation. -/
def toU32 (i : Int) : Nat := (i % (u32Mod : Int)).toNat

/-! ## Driver model

The SANE driver is an external black box; its responses are supplied by
explicit scripts.  A trace of the driver calls the program issues is
recorded alongside each result. -/

/-- One driver call issued by the program.  `close` is issued by
`Drop for Device` (`main.rs` lines 48-53); `cancel` by the explicit
`sane_cancel` calls. -/
inductive DriverCall
  | getDevices
  | openDevice
  | controlGetCount
  | getDescriptor
  | setOption (value : Int)
  | getOption
  | startScan
  | getParameters
  | read
  | cancel
  | close
deriving DecidableEq, Repr

/-- The typed failures `try_start_scanning` (and the option loop inside it)
can `bail!` with, plus `panicDivByZero` for the Rust division-by-zero panic
in the range-constraint logging. -/
inductive TssError
  | getDevicesFailed
  | noScannersFound
  | deviceOpenFailed
  | optionCountFailed
  | nullDescriptor
  | panicDivByZero
  | unknownConstraintType
  | resolutionTypeInvalid
  | optionSetFailed
  | optionQueryFailed
  | scanStartFailed
  | scanParametersFailed
deriving DecidableEq, Repr

/-- One option descriptor as returned by `sane_get_option_descriptor`:
the fields the program reads for control flow, plus the decoded constraint
payloads of the C union (each valid only under its tag).  Logging-only
fields (title, desc, size, cap) are omitted. -/
structure OptDescr where
  name : String
  type_ : Nat
  unit : Nat
  constraintType : Nat
  rangeMin : Int
  rangeMax : Int
  rangeQuant : Int
  wordList : List Int
  stringList : List String
deriving DecidableEq, Repr

/-- The steps computation `(*range).max / (*range).quant` in the range
branch (`main.rs` line 347): Rust `i32` division truncates toward zero and
panics when the divisor is zero, modelled as `none`. -/
def rangeSteps (mx quant : Int) : Option Int :=
  if quant = 0 then none else some (mx.tdiv quant)

/-- The constraint-decoding `match` on `constraint_type` (`main.rs` lines
338-370): known tags log their payload (the range tag computing
`max / quant`, a potential division-by-zero panic), an unknown tag is
`bail!("Unknown constraint type")`. -/
def decodeConstraint (d : OptDescr) : Except TssError Unit :=
  if d.constraintType = SANE_CONSTRAINT_NONE then Except.ok ()
  else if d.constraintType = SANE_CONSTRAINT_RANGE then
    match rangeSteps d.rangeMax d.rangeQuant with
    | some _ => Except.ok ()
    | none => Except.error TssError.panicDivByZero
  else if d.constraintType = SANE_CONSTRAINT_WORD_LIST then Except.ok ()
  else if d.constraintType = SANE_CONSTRAINT_STRING_LIST then Except.ok ()
  else Except.error TssError.unknownConstraintType

/-- Scripted driver responses for one iteration of the option loop:
the descriptor (`none` models a null pointer), and the statuses/values the
driver would answer to the `sane_control_option` set/get calls this
iteration may issue. -/
structure OptionStep where
  descr : Option OptDescr
  setStatus : Nat
  setInfo : Int
  getStatus : Nat
  getValue : Int
deriving DecidableEq, Repr

/-- One iteration of the option loop in `try_start_scanning` (`main.rs`
lines 310-496): fetch the descriptor (null → bail), decode/log the
constraint, then dispatch on the option name: `"resolution"` sets 300 when
the value type is int or fixed and errors on any other type, then reads the
value back; the four corner options are read; any other option is only
logged.  Returns the result together with the driver calls issued. -/
def processOption (st : OptionStep) : Except TssError Unit × List DriverCall :=
  match st.descr with
  | none => (Except.error TssError.nullDescriptor, [DriverCall.getDescriptor])
  | some d =>
    match decodeConstraint d with
    | Except.error e => (Except.error e, [DriverCall.getDescriptor])
    | Except.ok _ =>
      if d.name = "resolution" then
        if d.type_ = SANE_TYPE_INT ∨ d.type_ = SANE_TYPE_FIXED then
          if st.setStatus ≠ SANE_STATUS_GOOD then
            (Except.error TssError.optionSetFailed,
              [DriverCall.getDescriptor, DriverCall.setOption 300])
          else if st.getStatus ≠ SANE_STATUS_GOOD then
            (Except.error TssError.optionQueryFailed,
              [DriverCall.getDescriptor, DriverCall.setOption 300, DriverCall.getOption])
          else
            (Except.ok (),
              [DriverCall.getDescriptor, DriverCall.setOption 300, DriverCall.getOption])
        else
          (Except.error TssError.resolutionTypeInvalid, [DriverCall.getDescriptor])
      else if d.name = "tl-x" ∨ d.name = "tl-y" ∨ d.name = "br-x" ∨ d.name = "br-y" then
        if st.getStatus ≠ SANE_STATUS_GOOD then
          (Except.error TssError.optionQueryFailed,
            [DriverCall.getDescriptor, DriverCall.getOption])
        else
          (Except.ok (), [DriverCall.getDescriptor, DriverCall.getOption])
      else
        (Except.ok (), [DriverCall.getDescriptor])

/-- The whole option loop: iterate `processOption` over the scripted
descriptors, aborting at the first error (a `bail!` exits the function). -/
def runOptions : List OptionStep → Except TssError Unit × List DriverCall
  | [] => (Except.ok (), [])
  | st :: rest =>
    match processOption st with
    | (Except.error e, t) => (Except.error e, t)
    | (Except.ok _, t) =>
      match runOptions rest with
      | (r, t2) => (r, t ++ t2)

/-- Structure `SANE_Parameters` as filled by `sane_get_parameters`. -/
structure SaneParameters where
  format : Int
  last_frame : Int
  bytes_per_line : Int
  pixels_per_line : Int
  lines : Int
  depth : Int
deriving DecidableEq, Repr

/-- Scripted driver responses for one `try_start_scanning` run. -/
structure TssScript where
  getDevicesStatus : Nat
  devices : List String
  openStatus : Nat
  optionCountStatus : Nat
  options : List OptionStep
  startStatus : Nat
  getParametersStatus : Nat
  parameters : SaneParameters
deriving DecidableEq, Repr

/-- Function `fn try_start_scanning` (`main.rs` lines 246-536): enumerate devices
(bad status → bail; empty list → "No scanners found"), open the first
device, read the option count, run the option loop, `sane_start`, then
`sane_get_parameters`; width/height are `pixels_per_line as u32` /
`lines as u32`.  After a successful open, every `bail!` drops the `Device`
and hence issues `close`; on success the handle is moved to the caller. -/
def try_start_scanning (s : TssScript) : Except TssError (Nat × Nat) × List DriverCall :=
  if s.getDevicesStatus ≠ SANE_STATUS_GOOD then
    (Except.error TssError.getDevicesFailed, [DriverCall.getDevices])
  else if s.devices.isEmpty then
    (Except.error TssError.noScannersFound, [DriverCall.getDevices])
  else if s.openStatus ≠ SANE_STATUS_GOOD then
    (Except.error TssError.deviceOpenFailed, [DriverCall.getDevices, DriverCall.openDevice])
  else if s.optionCountStatus ≠ SANE_STATUS_GOOD then
    (Except.error TssError.optionCountFailed,
      [DriverCall.getDevices, DriverCall.openDevice, DriverCall.controlGetCount,
        DriverCall.close])
  else
    match runOptions s.options with
    | (Except.error e, t) =>
      (Except.error e,
        [DriverCall.getDevices, DriverCall.openDevice, DriverCall.controlGetCount]
          ++ t ++ [DriverCall.close])
    | (Except.ok _, t) =>
      if s.startStatus ≠ SANE_STATUS_GOOD then
        (Except.error TssError.scanStartFailed,
          [DriverCall.getDevices, DriverCall.openDevice, DriverCall.controlGetCount]
            ++ t ++ [DriverCall.startScan, DriverCall.close])
      else if s.getParametersStatus ≠ SANE_STATUS_GOOD then
        (Except.error TssError.scanParametersFailed,
          [DriverCall.getDevices, DriverCall.openDevice, DriverCall.controlGetCount]
            ++ t ++ [DriverCall.startScan, DriverCall.getParameters, DriverCall.close])
      else
        (Except.ok (toU32 s.parameters.pixels_per_line, toU32 s.parameters.lines),
          [DriverCall.getDevices, DriverCall.openDevice, DriverCall.controlGetCount]
            ++ t ++ [DriverCall.startScan, DriverCall.getParameters])

/-! ## Read loop and the two scan paths -/

/-- Outcome of one `sane_read` call: `eof` (`SANE_STATUS_EOF`), `good`
with the bytes written into the buffer, or any other status `st`. -/
inductive ReadResult
  | eof
  | good (bytes : List Nat)
  | err (st : Nat)
deriving DecidableEq, Repr

/-- Returns `true` when the read script makes the drain loop terminate (an `eof`
or an error before the script is exhausted); an exhausted script models a
read that blocks forever. -/
def drainEnds : List ReadResult → Bool
  | [] => false
  | ReadResult.eof :: _ => true
  | ReadResult.err _ :: _ => true
  | ReadResult.good _ :: rest => drainEnds rest

/-- Returns `true` when the drain loop terminates via `EndOfData`. -/
def endsWithEof : List ReadResult → Bool
  | [] => false
  | ReadResult.eof :: _ => true
  | ReadResult.err _ :: _ => false
  | ReadResult.good _ :: rest => endsWithEof rest

/-- Returns `true` when the drain loop terminates via a read error. -/
def drainErrEnd : List ReadResult → Bool
  | [] => false
  | ReadResult.eof :: _ => false
  | ReadResult.err _ :: _ => true
  | ReadResult.good _ :: rest => drainErrEnd rest

/-- The payloads of the successful reads the loop actually consumes:
`good` results up to (excluding) the first `eof`/error/blocked read. -/
def goodPayloads : List ReadResult → List (List Nat)
  | ReadResult.good bs :: rest => bs :: goodPayloads rest
  | _ => []

/-- The read loop of the batch path `fn scan` (`main.rs` lines 187-227)
together with its teardown: on `EOF` break, then `sane_cancel`, then
`close` via `Drop`; on `GOOD` append the bytes to the image and continue;
on any other status `bail!` — which skips `sane_cancel` and only runs
`close` via `Drop`.  `none` models a run whose next read never returns. -/
def batchDrain : List ReadResult → List Nat → Option (Except Nat (List Nat)) × List DriverCall
  | [], _ => (none, [DriverCall.read])
  | ReadResult.eof :: _, img =>
    (some (Except.ok img), [DriverCall.read, DriverCall.cancel, DriverCall.close])
  | ReadResult.good bs :: rest, img =>
    match batchDrain rest (img ++ bs) with
    | (r, t) => (r, DriverCall.read :: t)
  | ReadResult.err st :: _, _ =>
    (some (Except.error st), [DriverCall.read, DriverCall.close])

/-- Result of a whole batch `scan` run. -/
structure ScanImage where
  raw_data : List Nat
  width : Nat
  height : Nat
deriving DecidableEq, Repr

/-- Errors a batch `scan` run can surface. -/
inductive ScanError
  | initFailed
  | tss (e : TssError)
  | readFailed (st : Nat)
deriving DecidableEq, Repr

/-- Function `fn scan` (`main.rs` lines 178-227): init the library, run
`try_start_scanning`, then drain reads into one image buffer.  `initOk`
scripts whether `init_libsane` succeeds.  The second component is the
trace of driver calls issued after initialization. -/
def scanRun (initOk : Bool) (s : TssScript) (reads : List ReadResult) :
    Option (Except ScanError ScanImage) × List DriverCall :=
  if initOk = false then (some (Except.error ScanError.initFailed), [])
  else
    match try_start_scanning s with
    | (Except.error e, t) => (some (Except.error (ScanError.tss e)), t)
    | (Except.ok (w, h), t) =>
      match batchDrain reads [] with
      | (none, dt) => (none, t ++ dt)
      | (some (Except.error st), dt) =>
        (some (Except.error (ScanError.readFailed st)), t ++ dt)
      | (some (Except.ok img), dt) =>
        (some (Except.ok ⟨img, w, h⟩), t ++ dt)

/-! ## Streaming path -/

/-- Which failure an `Err` item sent through the bridge channel carries. -/
inductive ErrKind
  | initFailed
  | tssFailed (e : TssError)
  | readFailed (st : Nat)
deriving DecidableEq, Repr

/-- One item sent through the bridge channel, tagged by its production
site: the single pre-loop header send, a per-read data send, or an error
send. -/
inductive SentItem
  | headerChunk (bytes : List Nat)
  | dataChunk (bytes : List Nat)
  | errItem (e : ErrKind)
deriving DecidableEq, Repr

/-- Returns `true` exactly on header items. -/
def isHeaderItem : SentItem → Bool
  | SentItem.headerChunk _ => true
  | _ => false

/-- Returns `true` exactly on data items. -/
def isDataItem : SentItem → Bool
  | SentItem.dataChunk _ => true
  | _ => false

/-- Returns `true` exactly on error items. -/
def isErrItem : SentItem → Bool
  | SentItem.errItem _ => true
  | _ => false

/-- The bytes of a data item, `none` otherwise. -/
def dataPayload : SentItem → Option (List Nat)
  | SentItem.dataChunk bs => some bs
  | _ => none

/-- The read loop of `scan_stream_bmp` (`main.rs` lines 591-629) with its
teardown: on `EOF` break; on `GOOD` clone the buffer, apply `rgb_to_bgr`
and send it as a chunk; on any other status send one `Err` and break.
After the loop (either break) `sane_cancel` runs, then `close` via `Drop`.
Returns the sent items and the driver calls of the loop and teardown. -/
def streamDrain : List ReadResult → List SentItem × List DriverCall
  | [] => ([], [DriverCall.read])
  | ReadResult.eof :: _ =>
    ([], [DriverCall.read, DriverCall.cancel, DriverCall.close])
  | ReadResult.good bs :: rest =>
    match streamDrain rest with
    | (items, t) => (SentItem.dataChunk (rgb_to_bgr bs) :: items, DriverCall.read :: t)
  | ReadResult.err st :: _ =>
    ([SentItem.errItem (ErrKind.readFailed st)],
      [DriverCall.read, DriverCall.cancel, DriverCall.close])

/-- The worker closure of `fn scan_stream_bmp` (`main.rs` lines 538-632):
init failure or `try_start_scanning` failure send one `Err` and return
(the opened handle, if any, is closed inside `try_start_scanning`);
otherwise the BMP header for `width * height * 3` bytes (u32 arithmetic)
is built and sent once, then the read loop runs.  Writing the header into
a `Vec` cannot fail, so the closure's error branch for it is dead.
Returns the channel items in send order and the driver-call trace. -/
def streamWorker (initOk : Bool) (s : TssScript) (reads : List ReadResult) :
    List SentItem × List DriverCall :=
  if initOk = false then ([SentItem.errItem ErrKind.initFailed], [])
  else
    match try_start_scanning s with
    | (Except.error e, t) => ([SentItem.errItem (ErrKind.tssFailed e)], t)
    | (Except.ok (w, h), t) =>
      match streamDrain reads with
      | (items, dt) =>
        (SentItem.headerChunk (encode_as_bmp_closure (w * h * 3 % u32Mod) w h) :: items,
          t ++ dt)

/-- Returns `true` when every element except possibly the last satisfies
`!isErrItem`, i.e. an error item can only terminate the sequence. -/
def errOnlyLast : List SentItem → Bool
  | [] => true
  | [_] => true
  | x :: rest => !isErrItem x && errOnlyLast rest

/-! ## Concrete driver scripts used as test inputs -/

/-- A driver script on which `try_start_scanning` succeeds with zero
geometry: one device, every status good, no options. -/
def tssOK : TssScript :=
  { getDevicesStatus := 0, devices := ["dev"], openStatus := 0,
    optionCountStatus := 0, options := [], startStatus := 0,
    getParametersStatus := 0,
    parameters := { format := 0, last_frame := 0, bytes_per_line := 0,
                    pixels_per_line := 0, lines := 0, depth := 0 } }

/-- A driver script whose enumeration succeeds but returns no devices. -/
def tssNoDevices : TssScript :=
  { getDevicesStatus := 0, devices := [], openStatus := 0,
    optionCountStatus := 0, options := [], startStatus := 0,
    getParametersStatus := 0,
    parameters := { format := 0, last_frame := 0, bytes_per_line := 0,
                    pixels_per_line := 0, lines := 0, depth := 0 } }

/-- A `"resolution"` descriptor of value type int whose constraint is
`SANE_CONSTRAINT_NONE` (not a discrete numeric list) and whose unit is not
DPI. -/
def resolutionNoConstraintDescr : OptDescr :=
  { name := "resolution", type_ := SANE_TYPE_INT, unit := 0,
    constraintType := SANE_CONSTRAINT_NONE,
    rangeMin := 0, rangeMax := 0, rangeQuant := 0,
    wordList := [], stringList := [] }

/-- An option-loop iteration offering `resolutionNoConstraintDescr` with
all driver responses good. -/
def resolutionNoConstraintStep : OptionStep :=
  { descr := some resolutionNoConstraintDescr, setStatus := 0, setInfo := 0,
    getStatus := 0, getValue := 300 }

/-- A range-constrained descriptor with a positive quantum. -/
def rangeDescr : OptDescr :=
  { name := "brightness", type_ := SANE_TYPE_INT, unit := 0,
    constraintType := SANE_CONSTRAINT_RANGE,
    rangeMin := 0, rangeMax := 1200, rangeQuant := 300,
    wordList := [], stringList := [] }

/-! ## Theorems -/

theorem rgb_to_bgr_cons3 (a b c : Nat) (rest : List Nat) :
    rgb_to_bgr (a :: b :: c :: rest) = c :: b :: a :: rgb_to_bgr rest := rfl

theorem rgb_to_bgr_append : ∀ (l m : List Nat), l.length % 3 = 0 →
    rgb_to_bgr (l ++ m) = rgb_to_bgr l ++ rgb_to_bgr m
  | [], m, _ => by simp [rgb_to_bgr]
  | [a], m, h => by simp at h
  | [a, b], m, h => by simp at h
  | a :: b :: c :: rest, m, h => by
    have h3 : rest.length % 3 = 0 := by
      simp only [List.length_cons] at h
      omega
    simp only [List.cons_append, rgb_to_bgr_cons3, rgb_to_bgr_append rest m h3]

/-- C9: for every partition of a byte sequence into chunks whose lengths
are positive multiples of 3, applying `rgb_to_bgr` per chunk and
concatenating equals applying `rgb_to_bgr` once to the concatenation. -/
theorem rgb_to_bgr_chunkwise (chunks : List (List Nat))
    (h : ∀ c ∈ chunks, 0 < c.length ∧ c.length % 3 = 0) :
    (chunks.map rgb_to_bgr).flatten = rgb_to_bgr chunks.flatten := by
  induction chunks with
  | nil => simp [rgb_to_bgr]
  | cons c cs ih =>
    have hc := h c (List.mem_cons_self c cs)
    have hcs : ∀ x ∈ cs, 0 < x.length ∧ x.length % 3 = 0 :=
      fun x hx => h x (List.mem_cons_of_mem c hx)
    simp only [List.map_cons, List.flatten_cons]
    rw [rgb_to_bgr_append c cs.flatten hc.2, ih hcs]

/-- C9 witness: a concrete partition into chunks of lengths 3 and 6. -/
theorem rgb_to_bgr_chunkwise_witness :
    (([[1, 2, 3], [4, 5, 6, 7, 8, 9]] : List (List Nat)).map rgb_to_bgr).flatten
      = rgb_to_bgr ([[1, 2, 3], [4, 5, 6, 7, 8, 9]] : List (List Nat)).flatten :=
  rgb_to_bgr_chunkwise [[1, 2, 3], [4, 5, 6, 7, 8, 9]] (by decide)

/-- C8: encoding a 0×0 image with the batch encoder yields exactly 54
bytes — precisely the header bytes the streaming closure would emit and
nothing else — and the little-endian file-size field at offsets 2..6 is
54. -/
theorem encode_as_bmp_zero_image :
    (encode_as_bmp [] 0 0).length = 54 ∧
    ((encode_as_bmp [] 0 0).drop 2).take 4 = u32le 54 ∧
    encode_as_bmp [] 0 0 = encode_as_bmp_closure 0 0 0 := by decide

theorem u32le_mod (n : Nat) : u32le (n % u32Mod) = u32le n := by
  simp only [u32le, u32Mod, List.cons.injEq, and_true]
  refine ⟨?_, ?_, ?_, ?_⟩ <;> omega

/-- C10: for every pixel list and dimensions, the first 54 bytes of the
batch encoder's output coincide with the bytes the streaming header
closure produces for `img_len = img.length` (as `u32`) and the same
dimensions. -/
theorem encode_as_bmp_header_refinement (img : List Nat) (w h : Nat) :
    (encode_as_bmp img w h).take 54
      = encode_as_bmp_closure (img.length % u32Mod) w h := by
  have hsize : u32le (BMP_HEADER_SIZE + img.length % u32Mod)
      = u32le (BMP_HEADER_SIZE + img.length) := by
    rw [← u32le_mod (BMP_HEADER_SIZE + img.length % u32Mod),
      ← u32le_mod (BMP_HEADER_SIZE + img.length)]
    congr 1
    simp only [u32Mod]
    omega
  have heq : encode_as_bmp img w h
      = encode_as_bmp_closure (img.length % u32Mod) w h ++ img := by
    simp only [encode_as_bmp, encode_as_bmp_closure, hsize, List.append_assoc]
  have hlen : (encode_as_bmp_closure (img.length % u32Mod) w h).length = 54 := by
    simp [encode_as_bmp_closure, u32le, u16le]
  rw [heq, ← hlen, List.take_left]

/-- C10 witness: a concrete 3-byte image with nonzero dimensions. -/
theorem encode_as_bmp_header_refinement_witness :
    (encode_as_bmp [9, 8, 7] 2 3).take 54 = encode_as_bmp_closure 3 2 3 :=
  encode_as_bmp_header_refinement [9, 8, 7] 2 3

/-- C7: decoding a range constraint with a positive quantum never takes
the division-by-zero branch: the steps computation `max / quant` is
defined and constraint decoding succeeds. -/
theorem range_quant_pos_no_div_by_zero (d : OptDescr)
    (hc : d.constraintType = SANE_CONSTRAINT_RANGE) (hq : 0 < d.rangeQuant) :
    (rangeSteps d.rangeMax d.rangeQuant).isSome = true ∧
    decodeConstraint d = Except.ok () := by
  have hne : d.rangeQuant ≠ 0 := ne_of_gt hq
  have hsteps : rangeSteps d.rangeMax d.rangeQuant
      = some (d.rangeMax.tdiv d.rangeQuant) := by
    simp [rangeSteps, hne]
  refine ⟨by simp [hsteps], ?_⟩
  simp [decodeConstraint, hc, SANE_CONSTRAINT_NONE, SANE_CONSTRAINT_RANGE, hsteps]

/-- C7 witness: the concrete range descriptor with quantum 300. -/
theorem range_quant_pos_no_div_by_zero_witness :
    (rangeSteps rangeDescr.rangeMax rangeDescr.rangeQuant).isSome = true ∧
    decodeConstraint rangeDescr = Except.ok () :=
  range_quant_pos_no_div_by_zero rangeDescr rfl (by decide)

/-- C1 counterexample: on a `"resolution"` option whose constraint is
`SANE_CONSTRAINT_NONE` (not a discrete numeric list) and whose unit is not
DPI, the code still issues the set call with 300 — so 300 is not set "only
if" the constraint is a discrete numeric list with DPI unit containing
300. -/
theorem resolution_set_without_word_list_constraint :
    DriverCall.setOption 300 ∈ (processOption resolutionNoConstraintStep).snd ∧
    resolutionNoConstraintDescr.constraintType ≠ SANE_CONSTRAINT_WORD_LIST ∧
    resolutionNoConstraintDescr.unit ≠ SANE_UNIT_DPI ∧
    (300 : Int) ∉ resolutionNoConstraintDescr.wordList := by decide

/-- C1 amended: when an option named `"resolution"` is found (and its
constraint decodes without aborting), the target 300 is set exactly when
the option's declared value type is int or fixed — the constraint kind,
the unit and the list contents are never consulted; any other value type
aborts negotiation with an error instead of leaving the default. -/
theorem resolution_negotiation_amended (st : OptionStep) (d : OptDescr)
    (hd : st.descr = some d) (hname : d.name = "resolution")
    (hc : decodeConstraint d = Except.ok ()) :
    ((d.type_ = SANE_TYPE_INT ∨ d.type_ = SANE_TYPE_FIXED) →
      DriverCall.setOption 300 ∈ (processOption st).snd) ∧
    (d.type_ ≠ SANE_TYPE_INT ∧ d.type_ ≠ SANE_TYPE_FIXED →
      (processOption st).fst = Except.error TssError.resolutionTypeInvalid ∧
      DriverCall.setOption 300 ∉ (processOption st).snd) := by
  obtain ⟨descr, ss, si, gs, gv⟩ := st
  simp only at hd
  subst hd
  simp only [processOption, hc]
  rw [if_pos hname]
  refine ⟨fun htype => ?_, fun htype => ?_⟩
  · rw [if_pos htype]
    split_ifs <;> simp
  · rw [if_neg (fun hor => hor.elim htype.1 htype.2)]
    simp

/-- C1 witness for the amended claim: the same descriptor as in the
counterexample, with value type int, gets the set call. -/
theorem resolution_negotiation_amended_witness :
    DriverCall.setOption 300 ∈ (processOption resolutionNoConstraintStep).snd :=
  (resolution_negotiation_amended resolutionNoConstraintStep
      resolutionNoConstraintDescr rfl rfl rfl).1 (Or.inl rfl)

/-- C6: when device enumeration succeeds with an empty device list,
`try_start_scanning` fails with the no-scanners-found error and the trace
contains neither an open nor a start call. -/
theorem empty_device_list_no_open_no_start (s : TssScript)
    (hst : s.getDevicesStatus = SANE_STATUS_GOOD) (hemp : s.devices = []) :
    (try_start_scanning s).fst = Except.error TssError.noScannersFound ∧
    DriverCall.openDevice ∉ (try_start_scanning s).snd ∧
    DriverCall.startScan ∉ (try_start_scanning s).snd := by
  unfold try_start_scanning
  rw [hst, hemp]
  simp

/-- C6 witness: the concrete empty-enumeration script. -/
theorem empty_device_list_no_open_no_start_witness :
    (try_start_scanning tssNoDevices).fst = Except.error TssError.noScannersFound ∧
    DriverCall.openDevice ∉ (try_start_scanning tssNoDevices).snd ∧
    DriverCall.startScan ∉ (try_start_scanning tssNoDevices).snd :=
  empty_device_list_no_open_no_start tssNoDevices rfl rfl

theorem cancel_not_in_processOption (st : OptionStep) :
    DriverCall.cancel ∉ (processOption st).snd := by
  unfold processOption
  repeat' split
  all_goals simp

theorem cancel_not_in_runOptions : ∀ (l : List OptionStep),
    DriverCall.cancel ∉ (runOptions l).snd
  | [] => by simp [runOptions]
  | st :: rest => by
    have h1 := cancel_not_in_processOption st
    have h2 := cancel_not_in_runOptions rest
    unfold runOptions
    split
    · next heq =>
      intro hmem
      exact h1 (by rw [heq]; exact hmem)
    · next t heq =>
      split
      next r t2 heq2 =>
      intro hmem
      rcases List.mem_append.mp hmem with hm | hm
      · exact h1 (by rw [heq]; exact hm)
      · exact h2 (by rw [heq2]; exact hm)

theorem cancel_not_in_tss (s : TssScript) :
    DriverCall.cancel ∉ (try_start_scanning s).snd := by
  unfold try_start_scanning
  repeat' split
  all_goals simp_all [cancel_not_in_runOptions]
  all_goals
    intro hmem
    exact cancel_not_in_runOptions s.options (by simp_all)

theorem batchDrain_eof_suffix : ∀ (reads : List ReadResult) (img : List Nat),
    endsWithEof reads = true →
    List.IsSuffix [DriverCall.cancel, DriverCall.close] (batchDrain reads img).snd
  | [], _, h => by simp [endsWithEof] at h
  | ReadResult.eof :: _, img, _ => ⟨[DriverCall.read], rfl⟩
  | ReadResult.err st :: _, img, h => by simp [endsWithEof] at h
  | ReadResult.good bs :: rest, img, h => by
    obtain ⟨p, hp⟩ := batchDrain_eof_suffix rest (img ++ bs)
      (by simpa [endsWithEof] using h)
    exact ⟨DriverCall.read :: p, by simp only [batchDrain]; rw [← hp]; simp⟩

theorem batchDrain_err_no_cancel : ∀ (reads : List ReadResult) (img : List Nat),
    drainErrEnd reads = true →
    List.IsSuffix [DriverCall.close] (batchDrain reads img).snd ∧
    DriverCall.cancel ∉ (batchDrain reads img).snd
  | [], _, h => by simp [drainErrEnd] at h
  | ReadResult.eof :: _, img, h => by simp [drainErrEnd] at h
  | ReadResult.err st :: _, img, _ =>
    ⟨⟨[DriverCall.read], rfl⟩, by simp [batchDrain]⟩
  | ReadResult.good bs :: rest, img, h => by
    obtain ⟨⟨p, hp⟩, hnc⟩ := batchDrain_err_no_cancel rest (img ++ bs)
      (by simpa [drainErrEnd] using h)
    refine ⟨⟨DriverCall.read :: p, by simp only [batchDrain]; rw [← hp]; simp⟩, ?_⟩
    simp only [batchDrain]
    intro hmem
    rcases List.mem_cons.mp hmem with hm | hm
    · exact absurd hm (by simp)
    · exact hnc hm

theorem streamDrain_ends_suffix : ∀ (reads : List ReadResult),
    drainEnds reads = true →
    List.IsSuffix [DriverCall.cancel, DriverCall.close] (streamDrain reads).snd
  | [], h => by simp [drainEnds] at h
  | ReadResult.eof :: _, _ => ⟨[DriverCall.read], rfl⟩
  | ReadResult.err st :: _, _ => ⟨[DriverCall.read], rfl⟩
  | ReadResult.good bs :: rest, h => by
    obtain ⟨p, hp⟩ := streamDrain_ends_suffix rest (by simpa [drainEnds] using h)
    exact ⟨DriverCall.read :: p, by simp only [streamDrain]; rw [← hp]; simp⟩

/-- C2 counterexample: a batch run whose handle was opened and whose
Draining loop ended with a read error issues `close` (via `Drop`) but
never `cancel` — the `bail!` skips the `sane_cancel` call. -/
theorem batch_read_error_skips_cancel :
    DriverCall.openDevice ∈ (scanRun true tssOK [ReadResult.err 9]).snd ∧
    DriverCall.close ∈ (scanRun true tssOK [ReadResult.err 9]).snd ∧
    DriverCall.cancel ∉ (scanRun true tssOK [ReadResult.err 9]).snd := by decide

/-- C2 amended: once a handle is open and the Draining loop ends, the
streaming path always finishes its trace with `cancel` then `close`, and
so does the batch path when the loop ends via `EndOfData`; but when the
batch loop ends via a read error only `close` runs and `cancel` is never
issued. -/
theorem teardown_after_draining (s : TssScript) (reads : List ReadResult)
    (w h : Nat) (hok : (try_start_scanning s).fst = Except.ok (w, h))
    (hends : drainEnds reads = true) :
    List.IsSuffix [DriverCall.cancel, DriverCall.close]
      (streamWorker true s reads).snd ∧
    (endsWithEof reads = true →
      List.IsSuffix [DriverCall.cancel, DriverCall.close]
        (scanRun true s reads).snd) ∧
    (drainErrEnd reads = true →
      List.IsSuffix [DriverCall.close] (scanRun true s reads).snd ∧
      DriverCall.cancel ∉ (scanRun true s reads).snd) := by
  rcases hts : try_start_scanning s with ⟨res, t⟩
  rw [hts] at hok
  simp only at hok
  subst hok
  have htnc : DriverCall.cancel ∉ t := by
    have := cancel_not_in_tss s
    rw [hts] at this
    exact this
  refine ⟨?_, fun heof => ?_, fun herr => ?_⟩
  · obtain ⟨p, hp⟩ := streamDrain_ends_suffix reads hends
    refine ⟨t ++ p, ?_⟩
    rcases hsd : streamDrain reads with ⟨items, dt⟩
    simp only [streamWorker, Bool.true_eq_false, if_neg, hts, hsd]
    rw [hsd] at hp
    simp only at hp
    rw [← hp]
    simp
  · obtain ⟨p, hp⟩ := batchDrain_eof_suffix reads [] heof
    refine ⟨t ++ p, ?_⟩
    rcases hbd : batchDrain reads [] with ⟨res, dt⟩
    rw [hbd] at hp
    simp only at hp
    have : (scanRun true s reads).snd = t ++ dt := by
      simp only [scanRun, Bool.true_eq_false, if_neg, hts, hbd]
      rcases res with _ | r
      · simp
      · rcases r with e | img <;> simp
    rw [this, ← hp]
    simp
  · obtain ⟨⟨p, hp⟩, hnc⟩ := batchDrain_err_no_cancel reads [] herr
    rcases hbd : batchDrain reads [] with ⟨res, dt⟩
    rw [hbd] at hp hnc
    simp only at hp hnc
    have hsnd : (scanRun true s reads).snd = t ++ dt := by
      simp only [scanRun, Bool.true_eq_false, if_neg, hts, hbd]
      rcases res with _ | r
      · simp
      · rcases r with e | img <;> simp
    refine ⟨⟨t ++ p, by rw [hsnd, ← hp]; simp⟩, ?_⟩
    rw [hsnd]
    intro hmem
    rcases List.mem_append.mp hmem with hm | hm
    · exact htnc hm
    · exact hnc hm

/-- C2 witness for the amended claim: the concrete succeeding script with
an immediate `EndOfData` read, on both paths. -/
theorem teardown_after_draining_witness :
    List.IsSuffix [DriverCall.cancel, DriverCall.close]
      (streamWorker true tssOK [ReadResult.eof]).snd ∧
    List.IsSuffix [DriverCall.cancel, DriverCall.close]
      (scanRun true tssOK [ReadResult.eof]).snd :=
  ⟨(teardown_after_draining tssOK [ReadResult.eof] 0 0 rfl rfl).1,
   (teardown_after_draining tssOK [ReadResult.eof] 0 0 rfl rfl).2.1 rfl⟩

theorem errOnlyLast_cons2 (x y : SentItem) (l : List SentItem) :
    errOnlyLast (x :: y :: l) = (!isErrItem x && errOnlyLast (y :: l)) := rfl

theorem errOnlyLast_cons_of (x : SentItem) (l : List SentItem)
    (hx : isErrItem x = false) (hl : errOnlyLast l = true) :
    errOnlyLast (x :: l) = true := by
  cases l with
  | nil => rfl
  | cons y m => rw [errOnlyLast_cons2, hx, hl]; rfl

theorem streamDrain_no_header : ∀ (reads : List ReadResult),
    (streamDrain reads).fst.countP isHeaderItem = 0
  | [] => rfl
  | ReadResult.eof :: _ => rfl
  | ReadResult.err st :: _ => rfl
  | ReadResult.good bs :: rest => by
    have ih := streamDrain_no_header rest
    rcases h : streamDrain rest with ⟨items, t⟩
    rw [h] at ih
    simp only at ih
    simp only [streamDrain, h]
    rw [List.countP_cons_of_neg _ _ (by simp [isHeaderItem])]
    exact ih

theorem streamDrain_err_count : ∀ (reads : List ReadResult),
    (streamDrain reads).fst.countP isErrItem
      = (if drainErrEnd reads = true then 1 else 0)
  | [] => rfl
  | ReadResult.eof :: _ => rfl
  | ReadResult.err st :: _ => by simp [streamDrain, drainErrEnd, isErrItem]
  | ReadResult.good bs :: rest => by
    have ih := streamDrain_err_count rest
    rcases h : streamDrain rest with ⟨items, t⟩
    rw [h] at ih
    simp only at ih
    simp only [streamDrain, h, drainErrEnd]
    rw [List.countP_cons_of_neg _ _ (by simp [isErrItem])]
    exact ih

theorem streamDrain_errOnlyLast : ∀ (reads : List ReadResult),
    errOnlyLast (streamDrain reads).fst = true
  | [] => rfl
  | ReadResult.eof :: _ => rfl
  | ReadResult.err st :: _ => rfl
  | ReadResult.good bs :: rest => by
    have ih := streamDrain_errOnlyLast rest
    rcases h : streamDrain rest with ⟨items, t⟩
    rw [h] at ih
    simp only at ih
    simp only [streamDrain, h]
    exact errOnlyLast_cons_of _ _ rfl ih

theorem streamDrain_filterMap : ∀ (reads : List ReadResult),
    (streamDrain reads).fst.filterMap dataPayload
      = (goodPayloads reads).map rgb_to_bgr
  | [] => rfl
  | ReadResult.eof :: _ => rfl
  | ReadResult.err st :: _ => rfl
  | ReadResult.good bs :: rest => by
    have ih := streamDrain_filterMap rest
    rcases h : streamDrain rest with ⟨items, t⟩
    rw [h] at ih
    simp only at ih
    simp only [streamDrain, h, goodPayloads, List.map_cons]
    rw [List.filterMap_cons]
    simp only [dataPayload, ih]

theorem streamWorker_items_ok (s : TssScript) (reads : List ReadResult)
    (w h : Nat) (hok : (try_start_scanning s).fst = Except.ok (w, h)) :
    (streamWorker true s reads).fst
      = SentItem.headerChunk (encode_as_bmp_closure (w * h * 3 % u32Mod) w h)
          :: (streamDrain reads).fst := by
  rcases hts : try_start_scanning s with ⟨res, t⟩
  rw [hts] at hok
  simp only at hok
  subst hok
  rcases hsd : streamDrain reads with ⟨items, dt⟩
  simp [streamWorker, hts, hsd]

/-- C3: in every streaming run whose `try_start_scanning` succeeded (the
header stage is reached), exactly one header chunk is sent, it is the
first item, and when the first read reports `EndOfData` the consumer gets
exactly that one header chunk and nothing else. -/
theorem header_chunk_first (initOk : Bool) (s : TssScript)
    (reads : List ReadResult) (w h : Nat) (hinit : initOk = true)
    (hok : (try_start_scanning s).fst = Except.ok (w, h)) :
    ((streamWorker initOk s reads).fst.countP isHeaderItem = 1) ∧
    ((streamWorker initOk s reads).fst.head?
      = some (SentItem.headerChunk (encode_as_bmp_closure (w * h * 3 % u32Mod) w h))) ∧
    (∀ rest, reads = ReadResult.eof :: rest →
      (streamWorker initOk s reads).fst
        = [SentItem.headerChunk (encode_as_bmp_closure (w * h * 3 % u32Mod) w h)]) := by
  subst hinit
  rw [streamWorker_items_ok s reads w h hok]
  refine ⟨?_, rfl, ?_⟩
  · rw [List.countP_cons_of_pos _ _ (by simp [isHeaderItem])]
    rw [streamDrain_no_header reads]
  · intro rest hr
    rw [hr]
    simp [streamDrain]

/-- C3 witness: the succeeding script whose first read is `EndOfData`
delivers exactly the header chunk. -/
theorem header_chunk_first_witness :
    (streamWorker true tssOK [ReadResult.eof]).fst
      = [SentItem.headerChunk (encode_as_bmp_closure 0 0 0)] :=
  (header_chunk_first true tssOK [ReadResult.eof] 0 0 rfl rfl).2.2 [] rfl

/-- C4 counterexample: a read that returns status good with zero bytes
still sends one (empty) data chunk downstream, where the claim demands
none. -/
theorem zero_byte_read_sends_chunk :
    (streamWorker true tssOK [ReadResult.good [], ReadResult.eof]).fst.countP
        isDataItem = 1 ∧
    (streamWorker true tssOK [ReadResult.good [], ReadResult.eof]).fst.filterMap
        dataPayload = [[]] := by decide

/-- C4 amended: the downstream data chunks are in one-to-one,
order-preserving correspondence with ALL reads of status good (including
zero-byte ones, which yield an empty data chunk), each chunk being the
read's bytes after the channel swap. -/
theorem data_chunks_match_good_reads (initOk : Bool) (s : TssScript)
    (reads : List ReadResult) (w h : Nat) (hinit : initOk = true)
    (hok : (try_start_scanning s).fst = Except.ok (w, h)) :
    (streamWorker initOk s reads).fst.filterMap dataPayload
      = (goodPayloads reads).map rgb_to_bgr := by
  subst hinit
  rw [streamWorker_items_ok s reads w h hok]
  rw [List.filterMap_cons]
  simp only [dataPayload]
  exact streamDrain_filterMap reads

/-- C4 witness: one 3-byte good read then `EndOfData`: the single data
chunk carries the swapped bytes. -/
theorem data_chunks_match_good_reads_witness :
    (streamWorker true tssOK
        [ReadResult.good [1, 2, 3], ReadResult.eof]).fst.filterMap dataPayload
      = [[3, 2, 1]] :=
  data_chunks_match_good_reads true tssOK
    [ReadResult.good [1, 2, 3], ReadResult.eof] 0 0 rfl rfl

/-- C5: in every streaming run at most one `Err` item is sent, an `Err`
can only be the final item, and a Draining loop that ends in a read error
produces exactly one `Err`. -/
theorem single_terminal_err (initOk : Bool) (s : TssScript)
    (reads : List ReadResult) :
    ((streamWorker initOk s reads).fst.countP isErrItem ≤ 1) ∧
    (errOnlyLast (streamWorker initOk s reads).fst = true) ∧
    (drainErrEnd reads = true →
      (streamWorker initOk s reads).fst.countP isErrItem = 1) := by
  by_cases hinit : initOk = true
  · subst hinit
    rcases hts : try_start_scanning s with ⟨res, t⟩
    rcases res with e | wh
    · have hw : streamWorker true s reads
          = ([SentItem.errItem (ErrKind.tssFailed e)], t) := by
        simp [streamWorker, hts]
      rw [hw]
      exact ⟨Nat.le_refl 1, rfl, fun _ => rfl⟩
    · rcases wh with ⟨w, h⟩
      rw [streamWorker_items_ok s reads w h (by rw [hts])]
      have hcount := streamDrain_err_count reads
      refine ⟨?_, ?_, fun herr => ?_⟩
      · rw [List.countP_cons_of_neg _ _ (by simp [isErrItem]), hcount]
        split <;> omega
      · exact errOnlyLast_cons_of _ _ rfl (streamDrain_errOnlyLast reads)
      · rw [List.countP_cons_of_neg _ _ (by simp [isErrItem]), hcount, if_pos herr]
  · have hfalse : initOk = false := by
      cases initOk
      · rfl
      · exact absurd rfl hinit
    have hw : streamWorker initOk s reads
        = ([SentItem.errItem ErrKind.initFailed], []) := by
      simp [streamWorker, hfalse]
    rw [hw]
    exact ⟨Nat.le_refl 1, rfl, fun _ => rfl⟩

/-- C5 witness: a mid-loop read error on the succeeding script yields
exactly one terminal `Err`. -/
theorem single_terminal_err_witness :
    (streamWorker true tssOK [ReadResult.good [1, 2, 3], ReadResult.err 7]).fst.countP
        isErrItem = 1 ∧
    errOnlyLast (streamWorker true tssOK
        [ReadResult.good [1, 2, 3], ReadResult.err 7]).fst = true :=
  ⟨(single_terminal_err true tssOK
      [ReadResult.good [1, 2, 3], ReadResult.err 7]).2.2 rfl,
   (single_terminal_err true tssOK
      [ReadResult.good [1, 2, 3], ReadResult.err 7]).2.1⟩
